import Mathlib

/-!
Verification development for the AI-team task-orchestration daemon.

This file gives a shallow embedding, in Lean 4, of the orchestration core of
the repository (`src/src/orchestrator.py`, `src/src/core/task_parser.py`,
`src/src/core/interfaces.py`, `src/config/settings.py`) and proves/refutes the
behavioural properties stated in the natural-language specification.

Modelling conventions:
* Python dataclasses become Lean structures with the same field names.
* Wall-clock timestamps (`datetime.now().isoformat()`) are abstracted to the
  constant string `""`; elapsed times (`time.time() - start_time`) are threaded
  as explicit rational-valued inputs.
* The `asyncio.wait(..., FIRST_COMPLETED)` three-way race of an execution
  attempt is modelled by the (rational) times at which each waiter would
  complete; ties are resolved exactly as the code's branch order does
  (execution first, then cancellation, then timeout).
* Collaborator calls (the Claude bridge, the LLAMA mediator, the validation
  engine) are modelled by explicit outcome inputs: either a returned value or
  a raised exception message (`Except String _`), mirroring that the core
  treats them as black boxes.
* Python `try/except` blocks become `match` on those outcome inputs.
-/

namespace AITeam

/-! ## String helpers

`marker in text_lower` (Python substring test) is modelled on character
lists. -/

/-- `startsWithList pat txt` holds when `pat` is an initial run of `txt`. -/
def startsWithList : List Char → List Char → Bool
  | [], _ => true
  | _ :: _, [] => false
  | a :: pat, b :: txt => a == b && startsWithList pat txt

/-- `hasSub pat txt`: Python's `pat in txt` substring containment test. -/
def hasSub (pat : List Char) : List Char → Bool
  | [] => pat.isEmpty
  | b :: txt => startsWithList pat (b :: txt) || hasSub pat txt

/-- `str.lower()` on the ASCII range (every transient marker is ASCII). -/
def asciiLower (c : Char) : Char :=
  if 65 ≤ c.toNat ∧ c.toNat ≤ 90 then Char.ofNat (c.toNat + 32) else c

/-- Accumulating decimal-digit parser. -/
def digitsValAux (acc : Nat) : List Char → Option Nat
  | [] => some acc
  | c :: cs => if c.isDigit then digitsValAux (acc * 10 + (c.toNat - 48)) cs else none

/-- Value of a non-empty all-digit character run. -/
def digitsVal : List Char → Option Nat
  | [] => none
  | cs => digitsValAux 0 cs

/-- Python `int(s)` for a string: optional surrounding whitespace, optional
sign, then decimal digits; anything else raises (`none`). -/
def pyIntOfString (s : String) : Option Int :=
  let cs := ((s.toList.dropWhile Char.isWhitespace).reverse.dropWhile
    Char.isWhitespace).reverse
  match cs with
  | '-' :: rest => (digitsVal rest).map (fun n => -(n : Int))
  | '+' :: rest => (digitsVal rest).map (fun n => (n : Int))
  | rest => (digitsVal rest).map (fun n => (n : Int))

/-! ## Data model (from `src/src/core/interfaces.py`) -/

/-- `TaskType` enum. -/
inductive TaskType
  | code_review
  | summarize
  | fix
  | analyze
  | documentation
  | bug_fix
deriving DecidableEq, Repr

/-- `TaskPriority` enum. -/
inductive TaskPriority
  | high
  | medium
  | low
deriving DecidableEq, Repr

/-- `TaskStatus` enum. -/
inductive TaskStatus
  | pending
  | processing
  | completed
  | failed
deriving DecidableEq, Repr

/-- The `.value` string of a `TaskStatus` (Python `Enum.value`). -/
def TaskStatus.value : TaskStatus → String
  | .pending => "pending"
  | .processing => "processing"
  | .completed => "completed"
  | .failed => "failed"

/-- `ValidationResult` dataclass (`valid`, `similarity`, `entropy`, `issues`). -/
structure ValidationResult where
  valid : Bool
  similarity : ℚ
  entropy : ℚ
  issues : List String
deriving DecidableEq, Repr

/-- The `validation_summary` dict built in `process_task` step 5: the
`__dict__` of the two `ValidationResult`s under keys `"llama"` and
`"result"`. -/
structure ValidationSummary where
  llama : ValidationResult
  result : ValidationResult
deriving DecidableEq, Repr

/-- The `parsed_output` payload, when it is a dict.  The orchestrator only
ever touches the keys `"content"` and `"validation"`; everything else the
bridge may have put there is carried opaquely in `rest`. -/
structure ParsedOutput where
  content : Option String := none
  validation : Option ValidationSummary := none
  rest : String := ""
deriving DecidableEq, Repr

/-- `TaskResult` dataclass.  `validation` models the dynamic attribute added
by `setattr(last_result, "validation", ...)` in step 5 (absent on a freshly
constructed result). -/
structure TaskResult where
  task_id : String
  success : Bool
  output : String
  errors : List String
  files_modified : List String
  execution_time : ℚ
  timestamp : String := ""
  raw_stdout : String := ""
  raw_stderr : String := ""
  parsed_output : Option ParsedOutput := none
  return_code : Int := 0
  retries : Nat := 0
  error_class : String := ""
  validation : Option ValidationSummary := none
deriving DecidableEq, Repr

/-! ## Configuration (from `src/config/settings.py`) -/

/-- `ValidationConfig.max_retries` default. -/
def max_retries_default : Nat := 3

/-- `ValidationConfig.backoff_multiplier` default. -/
def backoff_multiplier_default : ℚ := 2

/-- `SystemConfig.task_timeout` default (seconds). -/
def task_timeout_default : Int := 1800

/-! ## Error classification (`TaskOrchestrator._classify_error`) -/

/-- The `transient_markers` list, verbatim. -/
def transient_markers : List String :=
  ["rate limit", "rate-limit", "too many requests", "temporarily unavailable",
   "timeout", "timed out", "connection reset", "connection aborted",
   "503", "504", "network error", "retry later"]

/-- `_classify_error`: `"none"` on success, else `"transient"` iff a marker
occurs (case-insensitively) in `raw_stderr + "\n" + raw_stdout`, else
`"fatal"`. -/
def classify_error (result : TaskResult) : String :=
  if result.success then "none"
  else if transient_markers.any (fun marker =>
      hasSub marker.toList
        (((result.raw_stderr ++ "\n" ++ result.raw_stdout).toList).map asciiLower)) then
    "transient"
  else "fatal"

/-! ## Per-task timeout resolution (`process_task`, lines 493-497)

`task.metadata` is an open string-keyed dict; its values are modelled by
`MetaVal` and Python's `int(...)` conversion by `pyInt` (integers convert to
themselves, booleans to 0/1, strings by decimal parsing, `None` raises). -/

/-- A value stored in the task `metadata` dict. -/
inductive MetaVal
  | vInt (n : Int)
  | vStr (s : String)
  | vBool (b : Bool)
  | vNone
deriving DecidableEq, Repr

/-- Python `int(...)` applied to a metadata value; `none` models a raised
`ValueError`/`TypeError`. -/
def pyInt : MetaVal → Option Int
  | .vInt n => some n
  | .vBool b => some (if b then 1 else 0)
  | .vStr s => pyIntOfString s
  | .vNone => none

/-- `dict.get key` (no default): first binding for `key`.  The metadata dict
is modelled as an association list whose keys do not repeat. -/
def metaGet (m : List (String × MetaVal)) (key : String) : Option MetaVal :=
  (m.find? (fun kv => kv.fst == key)).map (·.snd)

/-- Lines 493-497 of `process_task`:
`int(task.metadata.get("timeout_sec", config.system.task_timeout)) if
getattr(task, "metadata", None) else config.system.task_timeout`, with the
surrounding `try/except` falling back to `config.system.task_timeout`.
Note an empty dict is falsy in Python, so it also takes the fallback. -/
def timeoutFor (metadata : Option (List (String × MetaVal))) (task_timeout : Int) : Int :=
  match metadata with
  | none => task_timeout
  | some m =>
    if m.isEmpty then task_timeout
    else
      match metaGet m "timeout_sec" with
      | none => task_timeout
      | some v =>
        match pyInt v with
        | some n => n
        | none => task_timeout

/-! ## The three-way execution race (`process_task`, lines 499-554)

Each attempt runs `claude_bridge.execute_task` as an `asyncio.Task` and waits
`FIRST_COMPLETED` on up to three waiters: the execution task, the task's
cancel-event wait (absent when no cancel event exists), and an
`asyncio.sleep(timeout_s)` (absent unless `timeout_s > 0`).  We model each
waiter by the time at which it would complete (`none` = never), compute the
earliest completion, and resolve ties by the code's branch order:
`if exec_task in done ... elif cancel_waiter in done ... else timeout`. -/

/-- Which waiter of the race wins. -/
inductive Winner
  | exec
  | cancel
  | timeout
deriving DecidableEq, Repr

/-- Minimum of two optional times (`none` = never completes). -/
def minOpt : Option ℚ → Option ℚ → Option ℚ
  | none, b => b
  | some a, none => some a
  | some a, some b => some (min a b)

/-- First completed waiter of the race, with the code's tie-breaking order.
`none` means no waiter ever completes (the `await` blocks forever). -/
def raceWinner (execAt cancelAt timeoutAt : Option ℚ) : Option Winner :=
  match minOpt execAt (minOpt cancelAt timeoutAt) with
  | none => none
  | some t =>
    if execAt = some t then some .exec
    else if cancelAt = some t then some .cancel
    else some .timeout

/-- The observable inputs of one execution attempt: when the bridge call
would complete and with what result, when the cancel event would fire, the
`random.uniform(0.75, 1.5)` jitter draw used if this attempt leads to a
retry sleep, and the elapsed wall time used for the `execution_time` of a
cancellation/timeout result. -/
structure AttemptInput where
  execAt : Option ℚ
  execResult : TaskResult
  cancelAt : Option ℚ
  jitter : ℚ
  elapsed : ℚ
deriving DecidableEq, Repr

/-- The `TaskResult` built by the cancellation branch (lines 525-533). -/
def cancelledResult (taskId : String) (elapsed : ℚ) : TaskResult :=
  { task_id := taskId
    success := false
    output := ""
    errors := ["cancelled"]
    files_modified := []
    execution_time := elapsed }

/-- The `TaskResult` built by the timeout branch (lines 541-549). -/
def timeoutResult (taskId : String) (timeout_s : Int) (elapsed : ℚ) : TaskResult :=
  { task_id := taskId
    success := false
    output := ""
    errors := ["timeout after " ++ toString timeout_s ++ "s"]
    files_modified := []
    execution_time := elapsed }

/-- The terminal result of a completed attempt numbered `a + 1` (0-based
start `a`): the bridge result with the orchestrator-set retry metadata
`result.error_class = _classify_error(result)` and `result.retries =
attempt - 1` (lines 555-557). -/
def completedResult (inp : AttemptInput) (a : Nat) : TaskResult :=
  { inp.execResult with error_class := classify_error inp.execResult, retries := a }

/-- Whether the loop's terminal result was returned directly from inside the
race (cancellation/timeout, which `return` without running steps 4-5) or fell
out of the loop normally (and proceeds to summarization/validation). -/
inductive TerminalKind
  | raced
  | completed
deriving DecidableEq, Repr

/-- The timeout waiter of one attempt: present iff `timeout_s and timeout_s > 0`
(line 512), completing after `timeout_s` seconds. -/
def attemptTimeoutAt (timeout_s : Int) : Option ℚ :=
  if 0 < timeout_s then some ((timeout_s : ℚ)) else none

/-- The `while True` retry loop of `process_task` (lines 499-570), one
recursion step per attempt.  `attempt` and `retry_delay` are the loop
variables (entering with `attempt = 0`, `retry_delay = 1.0`); `backoff_mult`
is already `max(1, config.validation.backoff_multiplier)`.  Returns the
terminal result together with the list of backoff delays slept, or `none` if
the modelled attempt inputs run out (or a race never resolves) before the
loop terminates. -/
def runAttempts (max_retries : Nat) (backoff_mult : ℚ) (timeout_s : Int)
    (taskId : String) (attempt : Nat) (retry_delay : ℚ) :
    List AttemptInput → Option (TerminalKind × TaskResult × List ℚ)
  | [] => none
  | inp :: rest =>
    let attempt := attempt + 1
    match raceWinner inp.execAt inp.cancelAt (attemptTimeoutAt timeout_s) with
    | none => none
    | some .cancel => some (.raced, cancelledResult taskId inp.elapsed, [])
    | some .timeout => some (.raced, timeoutResult taskId timeout_s inp.elapsed, [])
    | some .exec =>
      let error_class := classify_error inp.execResult
      let result := { inp.execResult with error_class := error_class, retries := attempt - 1 }
      if error_class = "transient" ∧ attempt ≤ max_retries ∧ result.success = false then
        let delay := retry_delay * inp.jitter
        match runAttempts max_retries backoff_mult timeout_s taskId attempt
            (retry_delay * backoff_mult) rest with
        | none => none
        | some (k, r, ds) => some (k, r, delay :: ds)
      else
        some (.completed, result, [])

/-! ## Summarization and validation (`process_task`, lines 572-612)

Step 4 calls `llama_mediator.summarize_result` and prepends the summary to
the result's output; it is NOT wrapped in its own `try`, so an exception
there escapes to `process_task`'s outer handler (lines 614-625), which
replaces the result by a fresh failed `TaskResult` whose sole error is the
exception message.  Step 5 (validation) IS wrapped in `try/except ... pass`.
Collaborator outcomes are modelled as `Except String _`: `.error msg` is a
raised exception with message `msg`. -/

/-- Step 5's attachment of the validation summary: `setdefault("validation")`
when `parsed_output` is a dict, else replace `parsed_output` by
`{"content": output, "validation": summary}`; plus the dynamic
`setattr(last_result, "validation", ...)`. -/
def attachValidation (r : TaskResult) (vs : ValidationSummary) : TaskResult :=
  let po : Option ParsedOutput :=
    match r.parsed_output with
    | some p => some (if p.validation = none then { p with validation := some vs } else p)
    | none => some { content := some r.output, validation := some vs }
  { r with parsed_output := po, validation := some vs }

/-- Steps 4-5 of `process_task` plus the outer exception handler, applied to
the terminal result of the execution loop.  `elapsed` is
`time.time() - start_time` at the moment the outer handler would build its
failure result. -/
def postProcess (execR : TaskResult) (elapsed : ℚ)
    (summaryOutcome : Except String String)
    (valOutcome : Except String ValidationSummary) : TaskResult :=
  match summaryOutcome with
  | .error msg =>
    -- summarize_result raised: caught by the outer handler, which returns a
    -- fresh failed TaskResult (lines 617-625)
    { task_id := execR.task_id
      success := false
      output := ""
      errors := [msg]
      files_modified := []
      execution_time := elapsed }
  | .ok summary =>
    let r := { execR with output := summary ++ "\n\n" ++ execR.output }
    match valOutcome with
    | .error _ => r
    | .ok vs => attachValidation r vs

/-- `process_task` from step 3 on (the execution loop composed with
summarization/validation): race-terminal results (cancellation/timeout)
`return` directly from inside the loop and never reach steps 4-5; normally
completed results go through `postProcess`.  `backoff_multiplier` is the raw
config value; the code applies `max(1, ...)` (line 490). -/
def process_task_model (max_retries : Nat) (backoff_multiplier : ℚ)
    (timeout_s : Int) (taskId : String) (inputs : List AttemptInput)
    (summaryOutcome : Except String String)
    (valOutcome : Except String ValidationSummary) (elapsed : ℚ) :
    Option TaskResult :=
  match runAttempts max_retries (max 1 backoff_multiplier) timeout_s taskId 0 1 inputs with
  | none => none
  | some (.raced, r, _) => some r
  | some (.completed, r, _) => some (postProcess r elapsed summaryOutcome valOutcome)

/-! ## Task type parsing (`TaskParser._parse_task_type`) -/

/-- `_parse_task_type`: `None`/empty is falsy (`if not type_str`); then a
lookup in the literal `type_map` dict, whose keys are exactly
`code_review`, `summarize`, `fix`, `analyze`. -/
def parse_task_type (type_str : Option String) : Except String TaskType :=
  match type_str with
  | none => .error "Task type is required"
  | some t =>
    if t = "" then .error "Task type is required"
    else if t = "code_review" then .ok .code_review
    else if t = "summarize" then .ok .summarize
    else if t = "fix" then .ok .fix
    else if t = "analyze" then .ok .analyze
    else .error ("Invalid task type: " ++ t ++
      ". Must be one of: ['code_review', 'summarize', 'fix', 'analyze']")

/-! ## Cancellation registry (`TaskOrchestrator.cancel_task`, lines 738-761)

State touched by `cancel_task`: the `_task_cancel_events` dict (task id to
event, with its set/unset flag), the `active_tasks` dict (only membership of
the id matters here), and the `_running_exec_tasks` dict (task id to the
in-flight `asyncio.Task`, of which only `done()` matters).  Requested
`.cancel()` calls and emitted events are recorded as traces. -/

/-- Association-list lookup (Python `dict.get`). -/
def alookup (key : String) : List (String × Bool) → Option Bool
  | [] => none
  | (k, v) :: rest => if k = key then some v else alookup key rest

/-- Set an existing event: `ev.set()`. -/
def setFlag (key : String) : List (String × Bool) → List (String × Bool)
  | [] => []
  | (k, v) :: rest => if k = key then (k, true) :: rest else (k, v) :: setFlag key rest

/-- The orchestrator state consulted and mutated by `cancel_task`. -/
structure CancelRegistry where
  cancelEvents : List (String × Bool) := []
  activeTaskIds : List String := []
  runningExecDone : List (String × Bool) := []
  execCancelRequests : List String := []
  emitted : List String := []
deriving DecidableEq, Repr

/-- The `if not ev.is_set()` block shared by both live paths: set the flag,
best-effort `.cancel()` the running execution task, emit `cancel_requested`,
return `True`. -/
def cancelCore (st : CancelRegistry) (task_id : String) : Bool × CancelRegistry :=
  let st := { st with cancelEvents := setFlag task_id st.cancelEvents }
  let st :=
    match alookup task_id st.runningExecDone with
    | some isDone =>
      if isDone then st
      else { st with execCancelRequests := st.execCancelRequests ++ [task_id] }
    | none => st
  (true, { st with emitted := st.emitted ++ ["cancel_requested"] })

/-- `cancel_task(task_id)`: returns the boolean result and the new state. -/
def cancel_task (st : CancelRegistry) (task_id : String) : Bool × CancelRegistry :=
  match alookup task_id st.cancelEvents with
  | none =>
    if task_id ∈ st.activeTaskIds then
      -- create a fresh (unset) event, then fall into the shared block
      cancelCore { st with cancelEvents := st.cancelEvents ++ [(task_id, false)] } task_id
    else (false, st)
  | some isSet =>
    if isSet then (false, st)
    else cancelCore st task_id

/-! ## Worker loop body (`TaskOrchestrator._task_worker`, lines 342-454)

One worker iteration after a successful dequeue, recorded as an effects
trace.  Inputs: the task's id and metadata, whether its cancel event was
already set at dequeue time, the success flag of the `process_task` result
(normal path only), and whether the source file exists / already sits in the
processed directory at archive time.  Artifact writing and event emission are
assumed not to raise (their `except` arms only log). -/

/-- `metadata.get(key, dflt)` for string-valued entries. -/
def metaGetD (m : List (String × MetaVal)) (key : String) (dflt : String) : String :=
  match metaGet m key with
  | some (.vStr s) => s
  | some _ => dflt
  | none => dflt

/-- Python truthiness of `getattr(task, "metadata", None)`:
false for `None` and for an empty dict. -/
def mdTruthy : Option (List (String × MetaVal)) → Bool
  | none => false
  | some m => !m.isEmpty

/-- Observable effects of one worker iteration. -/
structure WorkerEffects where
  statusSet : Option TaskStatus := none
  processCalled : Bool := false
  resultStored : Bool := false
  artifactsWritten : Bool := false
  archivedMove : Option (String × String) := none
  inflightDiscarded : List String := []
  pendingDiscarded : List String := []
  stateSaves : Nat := 0
  cancelEntryCleared : Bool := false
  events : List String := []
  taskDone : Bool := false
deriving DecidableEq, Repr

/-- One `_task_worker` iteration for a dequeued task.  The
`cancelAlreadySet` branch is lines 361-374; the normal path is lines
376-454 (with the archive block at 417-445). -/
def worker_iteration (taskId : String) (metadata : Option (List (String × MetaVal)))
    (cancelAlreadySet : Bool) (resultSuccess : Bool)
    (srcExists srcParentIsProcessed : Bool) : WorkerEffects :=
  if cancelAlreadySet then
    -- lines 361-374: mark failed, emit "cancelled", release locks, continue
    let released : List String :=
      match metadata with
      | some m => if m.isEmpty then [] else [metaGetD m "__file_path" ""]
      | none => []
    { statusSet := some .failed
      processCalled := false
      resultStored := false
      artifactsWritten := false
      archivedMove := none
      inflightDiscarded := released
      pendingDiscarded := released
      stateSaves := if mdTruthy metadata then 1 else 0
      cancelEntryCleared := false
      events := ["cancelled"]
      taskDone := true }
  else
    let status : TaskStatus := if resultSuccess then .completed else .failed
    -- archive block, lines 417-434
    let source_path_str : Option String :=
      match metadata with
      | some m => if m.isEmpty then none else
          match metaGet m "__file_path" with
          | some (.vStr s) => some s
          | _ => none
      | none => none
    let archivedMove : Option (String × String) :=
      match source_path_str with
      | some p =>
        if p ≠ "" ∧ srcExists ∧ srcParentIsProcessed = false then
          some (p, taskId ++ "." ++ status.value ++ ".task.md")
        else none
      | none => none
    let released : List String :=
      match metadata with
      | some m => if m.isEmpty then [] else [metaGetD m "__file_path" ""]
      | none => []
    { statusSet := some status
      processCalled := true
      resultStored := true
      artifactsWritten := true
      archivedMove := archivedMove
      inflightDiscarded := released
      pendingDiscarded := released
      stateSaves := if mdTruthy metadata then 1 else 0
      cancelEntryCleared := true
      events := ["claude_started", "claude_finished", "artifacts_written"] ++
        (if archivedMove.isSome then ["task_archived"] else [])
      taskDone := true }

/-! ## Ingestion handler and startup resume
(`_handle_new_task_file`, lines 282-340; `start`, lines 109-121) -/

/-- Outcome of validating/parsing one task file. -/
inductive FileOutcome
  | invalid
  | ok (taskId : String)
  | raisesExc
deriving DecidableEq, Repr

/-- `set.add`: append if absent (sets modelled as duplicate-free lists). -/
def insertIfAbsent (x : String) (l : List String) : List String :=
  if x ∈ l then l else l ++ [x]

/-- Orchestrator state touched by ingestion and resume.  `handlerCalls` is a
bookkeeping trace of every `_handle_new_task_file` invocation. -/
structure IngestState where
  inflight : List String := []
  pending : List String := []
  savedPending : Option (List String) := none
  queued : List (String × String) := []
  handlerCalls : List String := []
  events : List String := []
deriving Repr

/-- `_handle_new_task_file(file_path)`: skip when in flight; else lock,
track pending, persist, validate; invalid files drop the pending entry and
release the lock; parse exceptions release only the lock; success queues the
parsed task (recorded as `(task id, source path)`). -/
def handle_new_task_file (outcome : String → FileOutcome) (st : IngestState)
    (file_path : String) : IngestState :=
  let st := { st with handlerCalls := st.handlerCalls ++ [file_path] }
  if file_path ∈ st.inflight then st
  else
    let st := { st with
      inflight := insertIfAbsent file_path st.inflight
      pending := insertIfAbsent file_path st.pending }
    let st := { st with
      savedPending := some st.pending
      events := st.events ++ ["task_received"] }
    match outcome file_path with
    | .invalid =>
      let st := { st with pending := st.pending.erase file_path }
      let st := { st with savedPending := some st.pending }
      { st with inflight := st.inflight.erase file_path }
    | .raisesExc =>
      { st with inflight := st.inflight.erase file_path }
    | .ok taskId =>
      { st with
        events := st.events ++ ["parsed"]
        queued := st.queued ++ [(taskId, file_path)] }

/-- The resume condition of `start`: `p.exists() and p.parent != processed_dir`. -/
def resumeCond (onDisk inProcessedDir : String → Bool) (p : String) : Bool :=
  onDisk p && !inProcessedDir p

/-- The resume loop of `start` (lines 111-118) over a snapshot of the pending
set: re-ingest surviving paths through `_handle_new_task_file`, silently
discard the rest, then `_save_state()`. -/
def resume_pending (outcome : String → FileOutcome) (onDisk inProcessedDir : String → Bool) :
    List String → IngestState → IngestState
  | [], st => { st with savedPending := some st.pending }
  | p :: rest, st =>
    if resumeCond onDisk inProcessedDir p then
      resume_pending outcome onDisk inProcessedDir rest (handle_new_task_file outcome st p)
    else
      resume_pending outcome onDisk inProcessedDir rest { st with pending := st.pending.erase p }

/-- Startup resume: iterate over `list(self._pending_files)`. -/
def start_resume (outcome : String → FileOutcome) (onDisk inProcessedDir : String → Bool)
    (st : IngestState) : IngestState :=
  resume_pending outcome onDisk inProcessedDir st.pending st

/-! ## Predicates and derived sequences used by the statements below -/

/-- The attempt's race is won by the execution unit completing. -/
def execWins (timeout_s : Int) (inp : AttemptInput) : Prop :=
  raceWinner inp.execAt inp.cancelAt (attemptTimeoutAt timeout_s) = some .exec

instance (timeout_s : Int) (inp : AttemptInput) : Decidable (execWins timeout_s inp) := by
  unfold execWins; infer_instance

/-- The attempt completed (non-cancelled, non-timeout) with an unsuccessful
result classified as transient. -/
def transientFailure (timeout_s : Int) (inp : AttemptInput) : Prop :=
  execWins timeout_s inp ∧
  classify_error inp.execResult = "transient" ∧
  inp.execResult.success = false

instance (timeout_s : Int) (inp : AttemptInput) : Decidable (transientFailure timeout_s inp) := by
  unfold transientFailure; infer_instance

/-- The backoff-delay sequence the loop sleeps given starting delay `d`,
multiplier `m` and the successive jitter draws: `delay_i = d·m^(i-1)·jitter_i`
(1-indexed), exactly mirroring `delay = retry_delay * jitter` followed by
`retry_delay *= backoff_mult`. -/
def expectedDelays (d m : ℚ) : List ℚ → List ℚ
  | [] => []
  | j :: js => d * j :: expectedDelays (d * m) m js

/-! # Theorems -/

/-- C9: `_parse_task_type` accepts `analyze`, `fix`, `code_review` and
`summarize`, but — contrary to the spec's closed enumeration and to the
repository's own `TaskType` enum (which declares `DOCUMENTATION` and
`BUG_FIX`), its agent manager, and its Telegram `/documentation` and
`/bug_fix` commands — it rejects `bug_fix` and `documentation` with a
validation error. -/
theorem C9_parse_task_type_eval :
    parse_task_type (some "analyze") = .ok .analyze ∧
    parse_task_type (some "fix") = .ok .fix ∧
    parse_task_type (some "code_review") = .ok .code_review ∧
    parse_task_type (some "summarize") = .ok .summarize ∧
    (∃ e, parse_task_type (some "bug_fix") = .error e) ∧
    (∃ e, parse_task_type (some "documentation") = .error e) := by
  refine ⟨rfl, rfl, rfl, rfl, ⟨_, rfl⟩, ⟨_, rfl⟩⟩

/-- C10: the execution-race timeout falls back to the system default
`task_timeout` (1800 s by default) whenever the metadata map is absent (or
empty, which is falsy in Python), lacks the key `"timeout_sec"`, or holds a
value on which `int(...)` raises; the fallback never raises and never by
itself fails the task. -/
theorem C10_timeout_fallback (d : Int) (m : List (String × MetaVal)) :
    timeoutFor none d = d ∧
    (metaGet m "timeout_sec" = none → timeoutFor (some m) d = d) ∧
    (∀ v, metaGet m "timeout_sec" = some v → pyInt v = none →
      timeoutFor (some m) d = d) ∧
    task_timeout_default = 1800 := by
  refine ⟨rfl, ?_, ?_, rfl⟩
  · intro h
    by_cases he : m.isEmpty <;> simp [timeoutFor, he, h]
  · intro v hv hi
    by_cases he : m.isEmpty <;> simp [timeoutFor, he, hv, hi]

/-- Witness for C10 at a malformed `timeout_sec` value. -/
theorem C10_timeout_fallback_witness :
    timeoutFor (some [("timeout_sec", MetaVal.vStr "soon")]) 1800 = 1800 :=
  (C10_timeout_fallback 1800 [("timeout_sec", MetaVal.vStr "soon")]).2.2.1
    (MetaVal.vStr "soon") rfl (by decide)

/-- C5 counterexample: with the cancel flag already set at dequeue, the
worker iteration performs NO archival move, while the normal completion path
on the very same task and filesystem state moves the source file into the
processed archive — refuting "this path still performs the same archival
... : the source file is moved to the processed archive". -/
theorem C5_counterexample :
    (worker_iteration "t1" (some [("__file_path", MetaVal.vStr "tasks/a.task.md")])
      true false true false).archivedMove = none ∧
    (worker_iteration "t1" (some [("__file_path", MetaVal.vStr "tasks/a.task.md")])
      false false true false).archivedMove =
      some ("tasks/a.task.md", "t1.failed.task.md") := by
  constructor <;> rfl

/-- C5 (amended): if the cancel flag is already set when a worker dequeues a
task, the worker marks it failed, emits only the "cancelled" event, never
invokes the Execution Pipeline, and performs the lock/pending cleanup of the
completion path — it discards the in-flight lock and the pending-set entry
and persists the pending state — but it does NOT move the source file to the
processed archive, nor write artifacts, nor store a result. -/
theorem C5_cancel_before_start (taskId : String) (m : List (String × MetaVal))
    (hm : m.isEmpty = false) (resultSuccess srcExists srcInProc : Bool) :
    (worker_iteration taskId (some m) true resultSuccess srcExists srcInProc).statusSet =
        some TaskStatus.failed ∧
    (worker_iteration taskId (some m) true resultSuccess srcExists srcInProc).processCalled = false ∧
    (worker_iteration taskId (some m) true resultSuccess srcExists srcInProc).events = ["cancelled"] ∧
    (worker_iteration taskId (some m) true resultSuccess srcExists srcInProc).inflightDiscarded =
        [metaGetD m "__file_path" ""] ∧
    (worker_iteration taskId (some m) true resultSuccess srcExists srcInProc).pendingDiscarded =
        [metaGetD m "__file_path" ""] ∧
    (worker_iteration taskId (some m) true resultSuccess srcExists srcInProc).stateSaves = 1 ∧
    (worker_iteration taskId (some m) true resultSuccess srcExists srcInProc).archivedMove = none ∧
    (worker_iteration taskId (some m) true resultSuccess srcExists srcInProc).artifactsWritten = false ∧
    (worker_iteration taskId (some m) true resultSuccess srcExists srcInProc).resultStored = false := by
  simp [worker_iteration, mdTruthy, hm]

/-- Witness for C5 at a concrete task whose metadata carries a source path. -/
theorem C5_cancel_before_start_witness :
    (worker_iteration "t1" (some [("__file_path", MetaVal.vStr "tasks/a.task.md")])
      true false true false).statusSet = some TaskStatus.failed ∧
    (worker_iteration "t1" (some [("__file_path", MetaVal.vStr "tasks/a.task.md")])
      true false true false).processCalled = false ∧
    (worker_iteration "t1" (some [("__file_path", MetaVal.vStr "tasks/a.task.md")])
      true false true false).events = ["cancelled"] ∧
    (worker_iteration "t1" (some [("__file_path", MetaVal.vStr "tasks/a.task.md")])
      true false true false).inflightDiscarded =
        [metaGetD [("__file_path", MetaVal.vStr "tasks/a.task.md")] "__file_path" ""] ∧
    (worker_iteration "t1" (some [("__file_path", MetaVal.vStr "tasks/a.task.md")])
      true false true false).pendingDiscarded =
        [metaGetD [("__file_path", MetaVal.vStr "tasks/a.task.md")] "__file_path" ""] ∧
    (worker_iteration "t1" (some [("__file_path", MetaVal.vStr "tasks/a.task.md")])
      true false true false).stateSaves = 1 ∧
    (worker_iteration "t1" (some [("__file_path", MetaVal.vStr "tasks/a.task.md")])
      true false true false).archivedMove = none ∧
    (worker_iteration "t1" (some [("__file_path", MetaVal.vStr "tasks/a.task.md")])
      true false true false).artifactsWritten = false ∧
    (worker_iteration "t1" (some [("__file_path", MetaVal.vStr "tasks/a.task.md")])
      true false true false).resultStored = false :=
  C5_cancel_before_start "t1" [("__file_path", MetaVal.vStr "tasks/a.task.md")] rfl false true false

/-! ### Cancellation-registry lemmas -/

lemma alookup_setFlag_self (key : String) (l : List (String × Bool)) (b : Bool)
    (h : alookup key l = some b) : alookup key (setFlag key l) = some true := by
  induction l with
  | nil => simp [alookup] at h
  | cons kv rest ih =>
    obtain ⟨k, v⟩ := kv
    by_cases hk : k = key
    · subst hk; simp [alookup, setFlag]
    · simp only [alookup, setFlag, if_neg hk] at h ⊢
      exact ih h

lemma alookup_append_single (key : String) (l : List (String × Bool)) (b : Bool)
    (h : alookup key l = none) : alookup key (l ++ [(key, b)]) = some b := by
  induction l with
  | nil => simp [alookup]
  | cons kv rest ih =>
    obtain ⟨k, v⟩ := kv
    by_cases hk : k = key
    · simp [alookup, hk] at h
    · simp only [List.cons_append, alookup, if_neg hk] at h ⊢
      exact ih h

lemma cancelCore_fst (st : CancelRegistry) (tid : String) :
    (cancelCore st tid).1 = true := by
  unfold cancelCore
  cases h : alookup tid st.runningExecDone with
  | none => simp [h]
  | some d => cases d <;> simp [h]

lemma cancelCore_cancelEvents (st : CancelRegistry) (tid : String) :
    (cancelCore st tid).2.cancelEvents = setFlag tid st.cancelEvents := by
  unfold cancelCore
  cases h : alookup tid st.runningExecDone with
  | none => simp [h]
  | some d => cases d <;> simp [h]

/-- C6 counterexample: for a live (queued) task `t1`, a first `cancel_task`
call returns `True`, but a second call for the very same — still live — task
returns `False`, refuting "it returns true whenever task_id refers to a live
task, including when cancellation was already requested for it". -/
theorem C6_counterexample :
    "t1" ∈ ((cancel_task { activeTaskIds := ["t1"] } "t1").2).activeTaskIds ∧
    (cancel_task { activeTaskIds := ["t1"] } "t1").1 = true ∧
    (cancel_task ((cancel_task { activeTaskIds := ["t1"] } "t1").2) "t1").1 = false := by
  refine ⟨by decide, by decide, by decide⟩

/-- C6 (amended): `cancel_task` is idempotent — when cancellation was already
requested it is a no-op returning `False` — and its return value reports
whether this call newly set the cancel flag of a live task: `True` exactly on
the first effective request (existing unset event, or no event yet but the id
is active), `False` both when no live task with that id exists and when
cancellation was already requested. -/
theorem C6_cancel_task_contract (st : CancelRegistry) (tid : String) :
    (alookup tid st.cancelEvents = some true → cancel_task st tid = (false, st)) ∧
    (alookup tid st.cancelEvents = none → tid ∉ st.activeTaskIds →
      cancel_task st tid = (false, st)) ∧
    (alookup tid st.cancelEvents = some false →
      (cancel_task st tid).1 = true ∧
      alookup tid (cancel_task st tid).2.cancelEvents = some true) ∧
    (alookup tid st.cancelEvents = none → tid ∈ st.activeTaskIds →
      (cancel_task st tid).1 = true ∧
      alookup tid (cancel_task st tid).2.cancelEvents = some true) := by
  refine ⟨?_, ?_, ?_, ?_⟩
  · intro h
    simp [cancel_task, h]
  · intro h hmem
    simp [cancel_task, h, hmem]
  · intro h
    have h1 : cancel_task st tid = cancelCore st tid := by
      simp [cancel_task, h]
    rw [h1, cancelCore_fst, cancelCore_cancelEvents]
    exact ⟨rfl, alookup_setFlag_self tid st.cancelEvents false h⟩
  · intro h hmem
    have h1 : cancel_task st tid =
        cancelCore { st with cancelEvents := st.cancelEvents ++ [(tid, false)] } tid := by
      simp [cancel_task, h, hmem]
    rw [h1, cancelCore_fst, cancelCore_cancelEvents]
    refine ⟨rfl, ?_⟩
    exact alookup_setFlag_self tid _ false (alookup_append_single tid st.cancelEvents false h)

/-- Witness for C6: the second call on a live task is a no-op returning
`False`. -/
theorem C6_cancel_task_witness :
    cancel_task { cancelEvents := [("t1", true)], activeTaskIds := ["t1"] } "t1" =
      (false, { cancelEvents := [("t1", true)], activeTaskIds := ["t1"] }) :=
  (C6_cancel_task_contract { cancelEvents := [("t1", true)], activeTaskIds := ["t1"] } "t1").1
    rfl

/-! ### C2: summarization / validation isolation -/

/-- C2 counterexample: a task whose single execution attempt SUCCEEDS, after
which `summarize_result` raises `"boom"`: `process_task` returns a fresh
Failed result with errors `["boom"]` instead of the successful execution
result — the summarization step is not wrapped in its own `try` (unlike
validation), so its exception reaches the outer handler and replaces the
outcome. -/
theorem C2_counterexample :
    process_task_model 3 2 1800 "t1"
        [{ execAt := some 1
           execResult := { task_id := "t1", success := true, output := "OK", errors := [],
                           files_modified := ["a.py"], execution_time := 1 }
           cancelAt := none, jitter := 1, elapsed := 5 }]
        (.error "boom") (.ok { llama := { valid := true, similarity := 1, entropy := 1, issues := [] },
                               result := { valid := true, similarity := 1, entropy := 1, issues := [] } })
        5 =
      some { task_id := "t1", success := false, output := "", errors := ["boom"],
             files_modified := [], execution_time := 5 } := by
  decide

/-- C2 (amended): once the execution loop has produced a normally completed
terminal result `r`, an exception in the VALIDATION step cannot change the
outcome (same `success`, `errors`, `files_modified`, `retries`,
`error_class`; only the summary prepend touches `output`) — but an exception
in the SUMMARIZATION step escapes to `process_task`'s outer handler, which
discards `r` and returns a fresh Failed result whose sole error is the
exception message. -/
theorem C2_soft_step_isolation (max_retries : Nat) (bm : ℚ) (timeout_s : Int)
    (tid : String) (inputs : List AttemptInput) (r : TaskResult) (ds : List ℚ)
    (elapsed : ℚ) (summary msg : String) (valOut : Except String ValidationSummary)
    (h : runAttempts max_retries (max 1 bm) timeout_s tid 0 1 inputs =
      some (.completed, r, ds)) :
    (∃ r', process_task_model max_retries bm timeout_s tid inputs (.ok summary) valOut elapsed =
        some r' ∧
      r'.success = r.success ∧ r'.errors = r.errors ∧
      r'.files_modified = r.files_modified ∧ r'.retries = r.retries ∧
      r'.error_class = r.error_class ∧ r'.output = summary ++ "\n\n" ++ r.output) ∧
    process_task_model max_retries bm timeout_s tid inputs (.error msg) valOut elapsed =
      some { task_id := r.task_id, success := false, output := "", errors := [msg],
             files_modified := [], execution_time := elapsed } := by
  unfold process_task_model
  rw [h]
  constructor
  · refine ⟨_, rfl, ?_⟩
    cases valOut with
    | error e => simp [postProcess]
    | ok vs => simp [postProcess, attachValidation]
  · rfl

/-- Witness for C2 at a concrete completed execution. -/
theorem C2_soft_step_isolation_witness :
    (∃ r', process_task_model 3 2 1800 "t1"
        [{ execAt := some 1
           execResult := { task_id := "t1", success := true, output := "OK", errors := [],
                           files_modified := ["a.py"], execution_time := 1 }
           cancelAt := none, jitter := 1, elapsed := 5 }]
        (.ok "summary") (.error "validation blew up") 5 = some r' ∧
      r'.success = true ∧ r'.errors = ([] : List String) ∧
      r'.files_modified = ["a.py"] ∧ r'.retries = 0 ∧ r'.error_class = "none") ∧
    process_task_model 3 2 1800 "t1"
        [{ execAt := some 1
           execResult := { task_id := "t1", success := true, output := "OK", errors := [],
                           files_modified := ["a.py"], execution_time := 1 }
           cancelAt := none, jitter := 1, elapsed := 5 }]
        (.error "boom2") (.error "validation blew up") 5 =
      some { task_id := "t1", success := false, output := "", errors := ["boom2"],
             files_modified := [], execution_time := 5 } := by
  have main := C2_soft_step_isolation 3 2 1800 "t1"
    [{ execAt := some 1
       execResult := { task_id := "t1", success := true, output := "OK", errors := [],
                       files_modified := ["a.py"], execution_time := 1 }
       cancelAt := none, jitter := 1, elapsed := 5 }]
    { task_id := "t1", success := true, output := "OK", errors := [],
      files_modified := ["a.py"], execution_time := 1, error_class := "none" }
    [] 5 "summary" "boom2" (.error "validation blew up") (by decide)
  obtain ⟨⟨r', h1, h2, h3, h4, h5, h6, h7⟩, h8⟩ := main
  exact ⟨⟨r', h1, h2, h3, h4, h5, h6⟩, h8⟩

/-! ### C1: the three-way race -/

lemma raceWinner_cancel (execAt : Option ℚ) (tc : ℚ) (timeoutAt : Option ℚ)
    (hexec : ∀ te, execAt = some te → tc < te)
    (htime : ∀ tt, timeoutAt = some tt → tc < tt) :
    raceWinner execAt (some tc) timeoutAt = some .cancel := by
  cases execAt with
  | none =>
    cases timeoutAt with
    | none => simp [raceWinner, minOpt]
    | some tt =>
      have h := htime tt rfl
      simp [raceWinner, minOpt, min_eq_left h.le]
  | some te =>
    have hte := hexec te rfl
    cases timeoutAt with
    | none =>
      simp [raceWinner, minOpt, min_eq_right hte.le, hte.ne']
    | some tt =>
      have h := htime tt rfl
      simp [raceWinner, minOpt, min_eq_left h.le, min_eq_right hte.le, hte.ne']

lemma raceWinner_timeout (execAt : Option ℚ) (tt : ℚ)
    (hexec : ∀ te, execAt = some te → tt < te) :
    raceWinner execAt none (some tt) = some .timeout := by
  cases execAt with
  | none => simp [raceWinner, minOpt]
  | some te =>
    have hte := hexec te rfl
    simp [raceWinner, minOpt, min_eq_right hte.le, hte.ne']

/-- C1: in the per-attempt three-way race, if the cancel flag fires strictly
before the timeout would elapse and strictly before the execution unit would
complete, `process_task` returns immediately (whatever later attempts would
have produced) a Failed result whose errors are exactly `["cancelled"]`;
conversely, if the timeout elapses first with no cancellation requested, it
returns immediately a Failed result whose errors are exactly
`["timeout after Ns"]`. -/
theorem C1_race_correctness (mr : Nat) (bm : ℚ) (timeout_s : Int) (tid : String)
    (inp : AttemptInput) (rest : List AttemptInput)
    (sOut : Except String String) (vOut : Except String ValidationSummary)
    (elapsed : ℚ) :
    (∀ tc, inp.cancelAt = some tc →
      (0 < timeout_s → tc < (timeout_s : ℚ)) →
      (∀ te, inp.execAt = some te → tc < te) →
      process_task_model mr bm timeout_s tid (inp :: rest) sOut vOut elapsed =
        some (cancelledResult tid inp.elapsed) ∧
      (cancelledResult tid inp.elapsed).errors = ["cancelled"] ∧
      (cancelledResult tid inp.elapsed).success = false) ∧
    (inp.cancelAt = none → 0 < timeout_s →
      (∀ te, inp.execAt = some te → (timeout_s : ℚ) < te) →
      process_task_model mr bm timeout_s tid (inp :: rest) sOut vOut elapsed =
        some (timeoutResult tid timeout_s inp.elapsed) ∧
      (timeoutResult tid timeout_s inp.elapsed).errors =
        ["timeout after " ++ toString timeout_s ++ "s"] ∧
      (timeoutResult tid timeout_s inp.elapsed).success = false) := by
  constructor
  · intro tc hc hct hexec
    have hw : raceWinner inp.execAt inp.cancelAt (attemptTimeoutAt timeout_s) =
        some .cancel := by
      rw [hc]
      apply raceWinner_cancel _ _ _ hexec
      intro tt htt
      unfold attemptTimeoutAt at htt
      by_cases hpos : 0 < timeout_s
      · rw [if_pos hpos] at htt
        obtain ⟨rfl⟩ : (timeout_s : ℚ) = tt := by injection htt
        exact hct hpos
      · rw [if_neg hpos] at htt
        exact absurd htt (by simp)
    refine ⟨?_, rfl, rfl⟩
    unfold process_task_model
    have hrun : runAttempts mr (max 1 bm) timeout_s tid 0 1 (inp :: rest) =
        some (.raced, cancelledResult tid inp.elapsed, []) := by
      simp [runAttempts, hw]
    rw [hrun]
  · intro hc hpos hexec
    have hw : raceWinner inp.execAt inp.cancelAt (attemptTimeoutAt timeout_s) =
        some .timeout := by
      rw [hc]
      have htt : attemptTimeoutAt timeout_s = some ((timeout_s : ℚ)) := by
        unfold attemptTimeoutAt
        rw [if_pos hpos]
      rw [htt]
      exact raceWinner_timeout inp.execAt _ hexec
    refine ⟨?_, rfl, rfl⟩
    unfold process_task_model
    have hrun : runAttempts mr (max 1 bm) timeout_s tid 0 1 (inp :: rest) =
        some (.raced, timeoutResult tid timeout_s inp.elapsed, []) := by
      simp [runAttempts, hw]
    rw [hrun]

/-- Witness for C1: a cancel flag firing at t = 1 s against an 1800 s timeout
and an execution unit that never completes. -/
theorem C1_race_correctness_witness :
    process_task_model 3 2 1800 "t1"
        [{ execAt := none
           execResult := { task_id := "t1", success := false, output := "", errors := [],
                           files_modified := [], execution_time := 0 }
           cancelAt := some 1, jitter := 1, elapsed := 2 }]
        (.ok "s") (.ok { llama := { valid := true, similarity := 1, entropy := 1, issues := [] },
                         result := { valid := true, similarity := 1, entropy := 1, issues := [] } })
        2 =
      some (cancelledResult "t1" 2) ∧
    (cancelledResult "t1" 2).errors = ["cancelled"] ∧
    (cancelledResult "t1" 2).success = false :=
  (C1_race_correctness 3 2 1800 "t1"
    { execAt := none
      execResult := { task_id := "t1", success := false, output := "", errors := [],
                      files_modified := [], execution_time := 0 }
      cancelAt := some 1, jitter := 1, elapsed := 2 } [] (.ok "s")
    (.ok { llama := { valid := true, similarity := 1, entropy := 1, issues := [] },
           result := { valid := true, similarity := 1, entropy := 1, issues := [] } }) 2).1
    1 rfl (fun _ => by norm_num) (fun te h => nomatch h)

/-! ### Retry-loop lemmas (shared by C3, C4, C7) -/

lemma classify_error_mem (r : TaskResult) :
    classify_error r ∈ (["none", "transient", "fatal"] : List String) := by
  unfold classify_error
  split
  · simp
  · split <;> simp

lemma classify_error_none_iff (r : TaskResult) :
    classify_error r = "none" ↔ r.success = true := by
  unfold classify_error
  split
  · next h => simp [h]
  · next h =>
    simp only [Bool.not_eq_true] at h
    simp only [h, Bool.false_eq_true, iff_false]
    split <;> decide

lemma classify_error_of_success (r : TaskResult) (h : r.success = true) :
    classify_error r = "none" := by
  unfold classify_error
  rw [if_pos h]

lemma classify_error_fatal_success (r : TaskResult)
    (h : classify_error r = "fatal") : r.success = false := by
  by_contra hs
  rw [Bool.not_eq_false] at hs
  rw [classify_error_of_success r hs] at h
  exact absurd h (by decide)

/-- Unfolding of one loop iteration whose race is won by the execution unit. -/
lemma runAttempts_cons_exec (mr : Nat) (bm : ℚ) (ts : Int) (tid : String)
    (a : Nat) (d : ℚ) (inp : AttemptInput) (rest : List AttemptInput)
    (hw : execWins ts inp) :
    runAttempts mr bm ts tid a d (inp :: rest) =
      if classify_error inp.execResult = "transient" ∧ a + 1 ≤ mr ∧
          inp.execResult.success = false then
        match runAttempts mr bm ts tid (a + 1) (d * bm) rest with
        | none => none
        | some (k, r, ds) => some (k, r, d * inp.jitter :: ds)
      else
        some (.completed, completedResult inp a, []) := by
  unfold execWins at hw
  simp [runAttempts, hw, completedResult]

/-- One retrying step: a transient failure with retry budget left recurses
with the attempt counter bumped and the delay multiplied. -/
lemma runAttempts_step_transient (mr : Nat) (bm : ℚ) (ts : Int) (tid : String)
    (a : Nat) (d : ℚ) (inp : AttemptInput) (rest : List AttemptInput)
    (h : transientFailure ts inp) (ha : a + 1 ≤ mr) :
    runAttempts mr bm ts tid a d (inp :: rest) =
      match runAttempts mr bm ts tid (a + 1) (d * bm) rest with
      | none => none
      | some (k, r, ds) => some (k, r, d * inp.jitter :: ds) := by
  obtain ⟨hw, hcl, hsu⟩ := h
  rw [runAttempts_cons_exec mr bm ts tid a d inp rest hw, if_pos ⟨hcl, ha, hsu⟩]

/-- A completed attempt that does not satisfy the retry condition is
terminal. -/
lemma runAttempts_terminal_exec (mr : Nat) (bm : ℚ) (ts : Int) (tid : String)
    (a : Nat) (d : ℚ) (inp : AttemptInput) (rest : List AttemptInput)
    (hw : execWins ts inp)
    (hnr : ¬ (classify_error inp.execResult = "transient" ∧ a + 1 ≤ mr ∧
      inp.execResult.success = false)) :
    runAttempts mr bm ts tid a d (inp :: rest) =
      some (.completed, completedResult inp a, []) := by
  rw [runAttempts_cons_exec mr bm ts tid a d inp rest hw, if_neg hnr]

/-- Skipping a prefix of transient failures within the retry budget: the loop
recurses through all of them, accumulating the corresponding backoff
delays. -/
lemma runAttempts_prefix_transient (mr : Nat) (bm : ℚ) (ts : Int) (tid : String)
    (pre : List AttemptInput) :
    ∀ (rest : List AttemptInput) (a : Nat) (d : ℚ),
    (∀ i ∈ pre, transientFailure ts i) → a + pre.length ≤ mr →
    runAttempts mr bm ts tid a d (pre ++ rest) =
      match runAttempts mr bm ts tid (a + pre.length) (d * bm ^ pre.length) rest with
      | none => none
      | some (k, r, ds) =>
        some (k, r, expectedDelays d bm (pre.map (·.jitter)) ++ ds) := by
  induction pre with
  | nil =>
    intro rest a d _ _
    simp only [List.nil_append, List.length_nil, Nat.add_zero, pow_zero, mul_one,
      List.map_nil]
    cases h : runAttempts mr bm ts tid a d rest with
    | none => rfl
    | some v =>
      obtain ⟨k, r, ds⟩ := v
      simp [expectedDelays]
  | cons i pre ih =>
    intro rest a d htr hlen
    have hi : transientFailure ts i := htr i (List.mem_cons_self i pre)
    have ha : a + 1 ≤ mr := by
      simp only [List.length_cons] at hlen
      omega
    rw [List.cons_append, runAttempts_step_transient mr bm ts tid a d i (pre ++ rest) hi ha,
      ih rest (a + 1) (d * bm) (fun j hj => htr j (List.mem_cons_of_mem i hj))
        (by simp only [List.length_cons] at hlen ⊢; omega)]
    have e1 : a + 1 + pre.length = a + (i :: pre).length := by
      simp only [List.length_cons]
      omega
    have e2 : d * bm * bm ^ pre.length = d * bm ^ (i :: pre).length := by
      simp only [List.length_cons, pow_succ]
      ring
    rw [e1, e2]
    cases h : runAttempts mr bm ts tid (a + (i :: pre).length) (d * bm ^ (i :: pre).length)
        rest with
    | none => rfl
    | some v =>
      obtain ⟨k, r, ds⟩ := v
      simp [expectedDelays]

/-- Shape of the terminal metadata: a normally completed terminal result
carries `retries = a + number of sleeps` and a genuine classification; a
race-terminal result carries the dataclass defaults. -/
lemma runAttempts_metadata (mr : Nat) (bm : ℚ) (ts : Int) (tid : String)
    (inputs : List AttemptInput) :
    ∀ (a : Nat) (d : ℚ) (k : TerminalKind) (r : TaskResult) (ds : List ℚ),
    runAttempts mr bm ts tid a d inputs = some (k, r, ds) →
    (k = .completed → r.retries = a + ds.length ∧
      r.error_class ∈ (["none", "transient", "fatal"] : List String) ∧
      (r.error_class = "none" ↔ r.success = true)) ∧
    (k = .raced → r.error_class = "" ∧ r.retries = 0 ∧ r.success = false) := by
  induction inputs with
  | nil => intro a d k r ds h; exact absurd h (by simp [runAttempts])
  | cons inp rest ih =>
    intro a d k r ds h
    cases hw : raceWinner inp.execAt inp.cancelAt (attemptTimeoutAt ts) with
    | none => rw [runAttempts, hw] at h; exact absurd h (by simp)
    | some w =>
      cases w with
      | cancel =>
        rw [runAttempts, hw] at h
        simp only [Option.some.injEq, Prod.mk.injEq] at h
        obtain ⟨hk, hr, hds⟩ := h
        subst hk; subst hr
        refine ⟨fun hc => ?_, fun _ => ⟨rfl, rfl, rfl⟩⟩
        exact nomatch hc
      | timeout =>
        rw [runAttempts, hw] at h
        simp only [Option.some.injEq, Prod.mk.injEq] at h
        obtain ⟨hk, hr, hds⟩ := h
        subst hk; subst hr
        refine ⟨fun hc => ?_, fun _ => ⟨rfl, rfl, rfl⟩⟩
        exact nomatch hc
      | exec =>
        rw [runAttempts_cons_exec mr bm ts tid a d inp rest hw] at h
        by_cases hcond : classify_error inp.execResult = "transient" ∧ a + 1 ≤ mr ∧
            inp.execResult.success = false
        · rw [if_pos hcond] at h
          cases hrec : runAttempts mr bm ts tid (a + 1) (d * bm) rest with
          | none => rw [hrec] at h; exact absurd h (by simp)
          | some v =>
            obtain ⟨k', r', ds'⟩ := v
            rw [hrec] at h
            simp only [Option.some.injEq, Prod.mk.injEq] at h
            obtain ⟨hk, hr, hds⟩ := h
            subst hk; subst hr; subst hds
            have := ih (a + 1) (d * bm) k' r' ds' hrec
            refine ⟨fun hc => ?_, this.2⟩
            obtain ⟨h1, h2, h3⟩ := this.1 hc
            exact ⟨by simp only [List.length_cons]; omega, h2, h3⟩
        · rw [if_neg hcond] at h
          simp only [Option.some.injEq, Prod.mk.injEq] at h
          obtain ⟨hk, hr, hds⟩ := h
          subst hk; subst hr; subst hds
          refine ⟨fun _ => ⟨by simp [completedResult],
            by simpa [completedResult] using classify_error_mem inp.execResult,
            by simpa [completedResult] using classify_error_none_iff inp.execResult⟩,
            fun hc => ?_⟩
          exact nomatch hc

/-- The slept delays are exactly `d·bm^i · jitter_i` over the retried prefix
of the attempt inputs. -/
lemma runAttempts_delays (mr : Nat) (bm : ℚ) (ts : Int) (tid : String)
    (inputs : List AttemptInput) :
    ∀ (a : Nat) (d : ℚ) (k : TerminalKind) (r : TaskResult) (ds : List ℚ),
    runAttempts mr bm ts tid a d inputs = some (k, r, ds) →
    ds = expectedDelays d bm ((inputs.map (·.jitter)).take ds.length) := by
  induction inputs with
  | nil => intro a d k r ds h; exact absurd h (by simp [runAttempts])
  | cons inp rest ih =>
    intro a d k r ds h
    cases hw : raceWinner inp.execAt inp.cancelAt (attemptTimeoutAt ts) with
    | none => rw [runAttempts, hw] at h; exact absurd h (by simp)
    | some w =>
      cases w with
      | cancel =>
        rw [runAttempts, hw] at h
        simp only [Option.some.injEq, Prod.mk.injEq] at h
        obtain ⟨_, _, hds⟩ := h
        subst hds
        rfl
      | timeout =>
        rw [runAttempts, hw] at h
        simp only [Option.some.injEq, Prod.mk.injEq] at h
        obtain ⟨_, _, hds⟩ := h
        subst hds
        rfl
      | exec =>
        rw [runAttempts_cons_exec mr bm ts tid a d inp rest hw] at h
        by_cases hcond : classify_error inp.execResult = "transient" ∧ a + 1 ≤ mr ∧
            inp.execResult.success = false
        · rw [if_pos hcond] at h
          cases hrec : runAttempts mr bm ts tid (a + 1) (d * bm) rest with
          | none => rw [hrec] at h; exact absurd h (by simp)
          | some v =>
            obtain ⟨k', r', ds'⟩ := v
            rw [hrec] at h
            simp only [Option.some.injEq, Prod.mk.injEq] at h
            obtain ⟨hk, hr, hds⟩ := h
            subst hds
            have hih := ih (a + 1) (d * bm) k' r' ds' hrec
            simp only [List.length_cons, List.map_cons, List.take_succ_cons,
              expectedDelays]
            rw [← hih]
        · rw [if_neg hcond] at h
          simp only [Option.some.injEq, Prod.mk.injEq] at h
          obtain ⟨_, _, hds⟩ := h
          subst hds
          rfl

lemma expectedDelays_length (m : ℚ) :
    ∀ (js : List ℚ) (d : ℚ), (expectedDelays d m js).length = js.length
  | [], _ => rfl
  | j :: js, d => by
    simp only [expectedDelays, List.length_cons, expectedDelays_length m js]

lemma expectedDelays_get (m : ℚ) :
    ∀ (js : List ℚ) (d : ℚ) (i : Nat) (h1 : i < (expectedDelays d m js).length)
      (h2 : i < js.length),
    (expectedDelays d m js).get ⟨i, h1⟩ = d * m ^ i * js.get ⟨i, h2⟩
  | j :: js, d, 0, _, _ => by simp [expectedDelays]
  | j :: js, d, i + 1, h1, h2 => by
    simp only [expectedDelays, List.get_cons_succ]
    rw [expectedDelays_get m js (d * m) i _ _]
    ring

lemma expectedDelays_chain (m : ℚ) (hm : 2 ≤ m) :
    ∀ (js : List ℚ) (d : ℚ), 0 < d → (∀ j ∈ js, (3 : ℚ)/4 ≤ j ∧ j ≤ 3/2) →
    (expectedDelays d m js).Chain' (· ≤ ·)
  | [], _, _, _ => by simp [expectedDelays]
  | [j], d, hd, hj => by simp [expectedDelays]
  | j₁ :: j₂ :: js, d, hd, hj => by
    have h1 := hj j₁ (by simp)
    have h2 := hj j₂ (by simp)
    have hm0 : (0 : ℚ) < m := lt_of_lt_of_le (by norm_num) hm
    have hdm : 0 < d * m := mul_pos hd hm0
    have ih := expectedDelays_chain m hm (j₂ :: js) (d * m) hdm
      (fun j hjm => hj j (List.mem_cons_of_mem j₁ hjm))
    rw [expectedDelays, expectedDelays, List.chain'_cons]
    refine ⟨?_, by rw [expectedDelays] at ih; exact ih⟩
    have e1 : d * j₁ ≤ d * (3/2) := by nlinarith [h1.2]
    have e2 : d * (3/2) ≤ (d * m) * (3/4) := by nlinarith [hm, hd]
    have e3 : (d * m) * (3/4) ≤ (d * m) * j₂ := by nlinarith [h2.1, hdm]
    linarith

lemma list_get_of_eq {α : Type} {l1 l2 : List α} (h : l1 = l2) (i : Nat)
    (hi : i < l1.length) (hi2 : i < l2.length) :
    l1.get ⟨i, hi⟩ = l2.get ⟨i, hi2⟩ := by
  subst h; rfl

lemma postProcess_ok_fields (r : TaskResult) (e : ℚ) (s : String)
    (v : Except String ValidationSummary) :
    (postProcess r e (.ok s) v).success = r.success ∧
    (postProcess r e (.ok s) v).errors = r.errors ∧
    (postProcess r e (.ok s) v).files_modified = r.files_modified ∧
    (postProcess r e (.ok s) v).retries = r.retries ∧
    (postProcess r e (.ok s) v).error_class = r.error_class := by
  cases v with
  | error e2 => simp [postProcess]
  | ok vs => simp [postProcess, attachValidation]

/-- C3: the retry policy of `process_task` (with summarization succeeding, so
the execution outcome survives post-processing): (a) `max_retries` transient
failures followed by one more transient failure terminate Failed with
`retries = max_retries` (`max_retries + 1` attempts in total);
(b) a completed non-transient (fatal) unsuccessful attempt is terminal
immediately, whatever attempts would follow; (c) a success after `k ≤
max_retries` transient failures is terminal with `success = true` and
`retries = k`. -/
theorem C3_retry_policy (mr : Nat) (bm : ℚ) (ts : Int) (tid : String)
    (summary : String) (vOut : Except String ValidationSummary) (elapsed : ℚ) :
    (∀ pre lastInp, (∀ i ∈ pre, transientFailure ts i) → pre.length = mr →
      transientFailure ts lastInp →
      ∃ r', process_task_model mr bm ts tid (pre ++ [lastInp]) (.ok summary) vOut
          elapsed = some r' ∧
        r'.success = false ∧ r'.retries = mr ∧ r'.error_class = "transient") ∧
    (∀ pre inp rest, (∀ i ∈ pre, transientFailure ts i) → pre.length ≤ mr →
      execWins ts inp → classify_error inp.execResult = "fatal" →
      ∃ r', process_task_model mr bm ts tid (pre ++ inp :: rest) (.ok summary) vOut
          elapsed = some r' ∧
        r'.success = false ∧ r'.retries = pre.length ∧ r'.error_class = "fatal") ∧
    (∀ pre inp rest, (∀ i ∈ pre, transientFailure ts i) → pre.length ≤ mr →
      execWins ts inp → inp.execResult.success = true →
      ∃ r', process_task_model mr bm ts tid (pre ++ inp :: rest) (.ok summary) vOut
          elapsed = some r' ∧
        r'.success = true ∧ r'.retries = pre.length ∧ r'.error_class = "none") := by
  refine ⟨?_, ?_, ?_⟩
  · intro pre lastInp htr hlen hlast
    have hpre := runAttempts_prefix_transient mr (max 1 bm) ts tid pre [lastInp] 0 1 htr
      (by omega)
    have hnr : ¬ (classify_error lastInp.execResult = "transient" ∧
        0 + pre.length + 1 ≤ mr ∧ lastInp.execResult.success = false) := by
      rintro ⟨_, hle, _⟩
      omega
    have hterm := runAttempts_terminal_exec mr (max 1 bm) ts tid (0 + pre.length)
      (1 * (max 1 bm) ^ pre.length) lastInp [] hlast.1 hnr
    unfold process_task_model
    rw [hpre, hterm]
    obtain ⟨hs, he, hf, hr, hec⟩ := postProcess_ok_fields
      (completedResult lastInp (0 + pre.length)) elapsed summary vOut
    refine ⟨_, rfl, ?_, ?_, ?_⟩
    · rw [hs]
      simpa [completedResult] using hlast.2.2
    · rw [hr]
      simpa [completedResult] using hlen
    · rw [hec]
      simpa [completedResult] using hlast.2.1
  · intro pre inp rest htr hlen hw hfatal
    have hpre := runAttempts_prefix_transient mr (max 1 bm) ts tid pre (inp :: rest) 0 1
      htr (by omega)
    have hnr : ¬ (classify_error inp.execResult = "transient" ∧
        0 + pre.length + 1 ≤ mr ∧ inp.execResult.success = false) := by
      rintro ⟨hcl, _, _⟩
      rw [hfatal] at hcl
      exact absurd hcl (by decide)
    have hterm := runAttempts_terminal_exec mr (max 1 bm) ts tid (0 + pre.length)
      (1 * (max 1 bm) ^ pre.length) inp rest hw hnr
    unfold process_task_model
    rw [hpre, hterm]
    obtain ⟨hs, he, hf, hr, hec⟩ := postProcess_ok_fields
      (completedResult inp (0 + pre.length)) elapsed summary vOut
    refine ⟨_, rfl, ?_, ?_, ?_⟩
    · rw [hs]
      simpa [completedResult] using classify_error_fatal_success inp.execResult hfatal
    · rw [hr]
      simp [completedResult]
    · rw [hec]
      simpa [completedResult] using hfatal
  · intro pre inp rest htr hlen hw hsucc
    have hcl : classify_error inp.execResult = "none" :=
      classify_error_of_success inp.execResult hsucc
    have hpre := runAttempts_prefix_transient mr (max 1 bm) ts tid pre (inp :: rest) 0 1
      htr (by omega)
    have hnr : ¬ (classify_error inp.execResult = "transient" ∧
        0 + pre.length + 1 ≤ mr ∧ inp.execResult.success = false) := by
      rintro ⟨hc, _, _⟩
      rw [hcl] at hc
      exact absurd hc (by decide)
    have hterm := runAttempts_terminal_exec mr (max 1 bm) ts tid (0 + pre.length)
      (1 * (max 1 bm) ^ pre.length) inp rest hw hnr
    unfold process_task_model
    rw [hpre, hterm]
    obtain ⟨hs, he, hf, hr, hec⟩ := postProcess_ok_fields
      (completedResult inp (0 + pre.length)) elapsed summary vOut
    refine ⟨_, rfl, ?_, ?_, ?_⟩
    · rw [hs]
      simpa [completedResult] using hsucc
    · rw [hr]
      simp [completedResult]
    · rw [hec]
      simpa [completedResult] using hcl

/-- Witness for C3, part (c): a transient failure (rate-limit marker) on
attempt 1 and a success on attempt 2 terminate with `success = true`,
`retries = 1` — the concrete scenario of spec §8. -/
theorem C3_retry_policy_witness :
    ∃ r', process_task_model 3 2 1800 "t1"
        ([{ execAt := some 1
            execResult := { task_id := "t1", success := false, output := "",
                            errors := ["HTTP 429"], files_modified := [],
                            execution_time := 0,
                            raw_stderr := "Rate limit exceeded. Please retry later." }
            cancelAt := none, jitter := 1, elapsed := 1 }] ++
          { execAt := some 1
            execResult := { task_id := "t1", success := true, output := "OK",
                            errors := [], files_modified := [], execution_time := 0 }
            cancelAt := none, jitter := 1, elapsed := 2 } :: [])
        (.ok "s") (.error "v") 3 = some r' ∧
      r'.success = true ∧ r'.retries = 1 ∧ r'.error_class = "none" :=
  (C3_retry_policy 3 2 1800 "t1" "s" (.error "v") 3).2.2
    [{ execAt := some 1
       execResult := { task_id := "t1", success := false, output := "",
                       errors := ["HTTP 429"], files_modified := [],
                       execution_time := 0,
                       raw_stderr := "Rate limit exceeded. Please retry later." }
       cancelAt := none, jitter := 1, elapsed := 1 }]
    { execAt := some 1
      execResult := { task_id := "t1", success := true, output := "OK",
                      errors := [], files_modified := [], execution_time := 0 }
      cancelAt := none, jitter := 1, elapsed := 2 }
    [] (by decide) (by decide) (by decide) rfl

/-- C7 counterexample: the cancellation branch's terminal `TaskResult`
carries `error_class = ""` — not a member of the claimed closed set
`{none, transient, fatal}` — and `retries = 0` regardless of the retries
actually performed, refuting the claim for the race-produced results. -/
theorem C7_counterexample :
    process_task_model 3 2 1800 "t1"
        [{ execAt := none
           execResult := { task_id := "t1", success := false, output := "", errors := [],
                           files_modified := [], execution_time := 0 }
           cancelAt := some 1, jitter := 1, elapsed := 2 }]
        (.ok "s") (.error "v") 2 = some (cancelledResult "t1" 2) ∧
    (cancelledResult "t1" 2).error_class = "" ∧
    ¬ ((cancelledResult "t1" 2).error_class ∈
        (["none", "transient", "fatal"] : List String)) := by
  refine ⟨by decide, rfl, by decide⟩

/-- C7 (amended): a terminal result that completed the execution race carries
`retries` equal to the number of backoff sleeps actually performed and an
`error_class` drawn from exactly `{none, transient, fatal}` (`none` iff the
result succeeded); the cancellation/timeout race results instead carry the
dataclass defaults `error_class = ""` and `retries = 0`, with
`success = false`. -/
theorem C7_terminal_metadata (mr : Nat) (bm : ℚ) (ts : Int) (tid : String)
    (inputs : List AttemptInput) (k : TerminalKind) (r : TaskResult) (ds : List ℚ)
    (h : runAttempts mr bm ts tid 0 1 inputs = some (k, r, ds)) :
    (k = .completed → r.retries = ds.length ∧
      r.error_class ∈ (["none", "transient", "fatal"] : List String) ∧
      (r.error_class = "none" ↔ r.success = true)) ∧
    (k = .raced → r.error_class = "" ∧ r.retries = 0 ∧ r.success = false) := by
  have hmain := runAttempts_metadata mr bm ts tid inputs 0 1 k r ds h
  refine ⟨fun hc => ?_, hmain.2⟩
  obtain ⟨h1, h2, h3⟩ := hmain.1 hc
  refine ⟨?_, h2, h3⟩
  omega

/-- Witness for C7 at a single successful attempt. -/
theorem C7_terminal_metadata_witness :
    (TerminalKind.completed = .completed →
      ({ task_id := "t1", success := true, output := "OK", errors := [],
         files_modified := [], execution_time := 0,
         error_class := "none" } : TaskResult).retries = ([] : List ℚ).length ∧
      ({ task_id := "t1", success := true, output := "OK", errors := [],
         files_modified := [], execution_time := 0,
         error_class := "none" } : TaskResult).error_class ∈
          (["none", "transient", "fatal"] : List String) ∧
      (({ task_id := "t1", success := true, output := "OK", errors := [],
          files_modified := [], execution_time := 0,
          error_class := "none" } : TaskResult).error_class = "none" ↔
        ({ task_id := "t1", success := true, output := "OK", errors := [],
           files_modified := [], execution_time := 0,
           error_class := "none" } : TaskResult).success = true)) ∧
    (TerminalKind.completed = .raced →
      ({ task_id := "t1", success := true, output := "OK", errors := [],
         files_modified := [], execution_time := 0,
         error_class := "none" } : TaskResult).error_class = "" ∧
      ({ task_id := "t1", success := true, output := "OK", errors := [],
         files_modified := [], execution_time := 0,
         error_class := "none" } : TaskResult).retries = 0 ∧
      ({ task_id := "t1", success := true, output := "OK", errors := [],
         files_modified := [], execution_time := 0,
         error_class := "none" } : TaskResult).success = false) :=
  C7_terminal_metadata 3 2 1800 "t1"
    [{ execAt := some 1
       execResult := { task_id := "t1", success := true, output := "OK", errors := [],
                       files_modified := [], execution_time := 0 }
       cancelAt := none, jitter := 1, elapsed := 1 }]
    .completed
    { task_id := "t1", success := true, output := "OK", errors := [],
      files_modified := [], execution_time := 0, error_class := "none" }
    [] (by decide)

/-- C4: across any retry run, the delay slept before the (0-indexed) `i`-th
retry equals `base_delay(=1)·backoff_mult^i·jitter_i` with `jitter_i` the
attempt's uniform(0.75, 1.5) draw; each delay therefore lies within
`[0.75·expected, 1.5·expected]` for its index, and with multiplier ≥ 2 the
delay sequence is non-decreasing. -/
theorem C4_backoff_delays (mr : Nat) (bm : ℚ) (ts : Int) (tid : String)
    (inputs : List AttemptInput) (k : TerminalKind) (r : TaskResult) (ds : List ℚ)
    (hbm : 2 ≤ bm)
    (hj : ∀ inp ∈ inputs, (3 : ℚ)/4 ≤ inp.jitter ∧ inp.jitter ≤ 3/2)
    (h : runAttempts mr bm ts tid 0 1 inputs = some (k, r, ds)) :
    (∀ i (hi : i < ds.length), ∃ hi2 : i < inputs.length,
      ds.get ⟨i, hi⟩ = bm ^ i * (inputs.get ⟨i, hi2⟩).jitter) ∧
    (∀ i (hi : i < ds.length),
      3/4 * bm ^ i ≤ ds.get ⟨i, hi⟩ ∧ ds.get ⟨i, hi⟩ ≤ 3/2 * bm ^ i) ∧
    ds.Chain' (· ≤ ·) := by
  have hds := runAttempts_delays mr bm ts tid inputs 0 1 k r ds h
  have hlenE : (expectedDelays 1 bm ((inputs.map (·.jitter)).take ds.length)).length =
      ((inputs.map (·.jitter)).take ds.length).length := expectedDelays_length bm _ 1
  have hjs_len : ((inputs.map (·.jitter)).take ds.length).length =
      min ds.length inputs.length := by
    simp
  have hlen2 : ds.length = min ds.length inputs.length := by
    conv_lhs => rw [hds]
    rw [hlenE, hjs_len]
  have hdlen : ds.length ≤ inputs.length := by
    rcases le_total ds.length inputs.length with hle | hle
    · exact hle
    · rw [min_eq_right hle] at hlen2
      omega
  have hget : ∀ i (hi : i < ds.length), ∃ hi2 : i < inputs.length,
      ds.get ⟨i, hi⟩ = bm ^ i * (inputs.get ⟨i, hi2⟩).jitter := by
    intro i hi
    have hi2 : i < inputs.length := lt_of_lt_of_le hi hdlen
    refine ⟨hi2, ?_⟩
    have hij : i < ((inputs.map (·.jitter)).take ds.length).length := by
      rw [hjs_len]
      exact lt_min hi hi2
    have hiE : i < (expectedDelays 1 bm ((inputs.map (·.jitter)).take ds.length)).length := by
      rw [hlenE]
      exact hij
    rw [list_get_of_eq hds i hi hiE, expectedDelays_get bm _ 1 i hiE hij]
    have e2 : ((inputs.map (·.jitter)).take ds.length).get ⟨i, hij⟩ =
        (inputs.get ⟨i, hi2⟩).jitter := by
      simp [List.get_eq_getElem]
    rw [e2]
    ring
  refine ⟨hget, ?_, ?_⟩
  · intro i hi
    obtain ⟨hi2, he⟩ := hget i hi
    rw [he]
    have hj2 := hj (inputs.get ⟨i, hi2⟩) (List.get_mem inputs i hi2)
    have hbp : (0 : ℚ) < bm ^ i := pow_pos (by linarith) i
    constructor <;> nlinarith [hj2.1, hj2.2, hbp]
  · rw [hds]
    apply expectedDelays_chain bm hbm _ 1 one_pos
    intro j hjm
    have hjmap : j ∈ inputs.map (·.jitter) := List.mem_of_mem_take hjm
    obtain ⟨inp, hin, rfl⟩ := List.mem_map.mp hjmap
    exact hj inp hin

/-- Witness for C4: two transient failures (jitter 1) then a success produce
the non-decreasing delay list `[1, 2]`. -/
theorem C4_backoff_delays_witness :
    ([1, 2] : List ℚ).Chain' (· ≤ ·) := by
  have h : runAttempts 3 2 1800 "t1" 0 1
      [{ execAt := some 1
         execResult := { task_id := "t1", success := false, output := "",
                         errors := ["HTTP 429"], files_modified := [],
                         execution_time := 0,
                         raw_stderr := "Rate limit exceeded. Please retry later." }
         cancelAt := none, jitter := 1, elapsed := 1 },
       { execAt := some 1
         execResult := { task_id := "t1", success := false, output := "",
                         errors := ["HTTP 429"], files_modified := [],
                         execution_time := 0,
                         raw_stderr := "Rate limit exceeded. Please retry later." }
         cancelAt := none, jitter := 1, elapsed := 2 },
       { execAt := some 1
         execResult := { task_id := "t1", success := true, output := "OK",
                         errors := [], files_modified := [], execution_time := 0 }
         cancelAt := none, jitter := 1, elapsed := 3 }] =
      some (.completed,
        completedResult
          { execAt := some 1
            execResult := { task_id := "t1", success := true, output := "OK",
                            errors := [], files_modified := [], execution_time := 0 }
            cancelAt := none, jitter := 1, elapsed := 3 } 2,
        [1, 2]) := by
    rw [runAttempts_step_transient 3 2 1800 "t1" 0 1 _ _ (by decide) (by norm_num)]
    rw [runAttempts_step_transient 3 2 1800 "t1" 1 (1 * 2) _ _ (by decide) (by norm_num)]
    rw [runAttempts_terminal_exec 3 2 1800 "t1" 2 (1 * 2 * 2) _ _ (by decide) (by decide)]
    norm_num
  exact (C4_backoff_delays 3 2 1800 "t1" _ .completed _ [1, 2] (by norm_num)
    (by intro inp hin
        simp only [List.mem_cons, List.not_mem_nil, or_false] at hin
        rcases hin with rfl | rfl | rfl <;> norm_num)
    h).2.2

/-! ### C8: startup resume over the persisted pending set -/

lemma handle_handlerCalls (outcome : String → FileOutcome) (st : IngestState) (p : String) :
    (handle_new_task_file outcome st p).handlerCalls = st.handlerCalls ++ [p] := by
  unfold handle_new_task_file
  by_cases hin : p ∈ st.inflight
  · simp [hin]
  · cases ho : outcome p <;> simp [hin, ho]

lemma handle_pending_value (outcome : String → FileOutcome) (st : IngestState) (p : String) :
    (handle_new_task_file outcome st p).pending =
      if p ∈ st.inflight then st.pending
      else match outcome p with
        | .invalid => (insertIfAbsent p st.pending).erase p
        | _ => insertIfAbsent p st.pending := by
  unfold handle_new_task_file
  by_cases hin : p ∈ st.inflight
  · simp [hin]
  · cases ho : outcome p <;> simp [hin, ho]

lemma handle_inflight_value (outcome : String → FileOutcome) (st : IngestState) (p : String) :
    (handle_new_task_file outcome st p).inflight =
      if p ∈ st.inflight then st.inflight
      else match outcome p with
        | .ok _ => insertIfAbsent p st.inflight
        | _ => (insertIfAbsent p st.inflight).erase p := by
  unfold handle_new_task_file
  by_cases hin : p ∈ st.inflight
  · simp [hin]
  · cases ho : outcome p <;> simp [hin, ho]

lemma mem_insertIfAbsent (x q : String) (l : List String) :
    q ∈ insertIfAbsent x l ↔ q ∈ l ∨ q = x := by
  unfold insertIfAbsent
  split
  · next hmem => constructor
                 · exact fun h => Or.inl h
                 · rintro (h | rfl)
                   · exact h
                   · exact hmem
  · simp

lemma insertIfAbsent_nodup (x : String) (l : List String) (hnd : l.Nodup) :
    (insertIfAbsent x l).Nodup := by
  unfold insertIfAbsent
  split
  · exact hnd
  · next hmem =>
    refine List.Nodup.append hnd (List.nodup_singleton x) ?_
    intro a ha hax
    simp only [List.mem_singleton] at hax
    exact hmem (hax ▸ ha)

lemma handle_pending_frame (outcome : String → FileOutcome) (st : IngestState)
    (p q : String) (hne : q ≠ p) :
    (q ∈ (handle_new_task_file outcome st p).pending ↔ q ∈ st.pending) := by
  rw [handle_pending_value]
  split
  · exact Iff.rfl
  · cases ho : outcome p <;>
      simp [ho, List.mem_erase_of_ne hne, mem_insertIfAbsent, hne]

lemma handle_inflight_frame (outcome : String → FileOutcome) (st : IngestState)
    (p q : String) (hne : q ≠ p) (hq : q ∉ st.inflight) :
    q ∉ (handle_new_task_file outcome st p).inflight := by
  rw [handle_inflight_value]
  split
  · exact hq
  · cases ho : outcome p <;>
      simp [ho, List.mem_erase_of_ne hne, mem_insertIfAbsent, hne, hq]

lemma handle_queued (outcome : String → FileOutcome) (st : IngestState) (p : String) :
    (handle_new_task_file outcome st p).queued =
      st.queued ++ (if p ∈ st.inflight then [] else
        match outcome p with
        | .ok tid => [(tid, p)]
        | _ => []) := by
  unfold handle_new_task_file
  by_cases hin : p ∈ st.inflight
  · simp [hin]
  · cases ho : outcome p <;> simp [hin, ho]

lemma handle_pending_nodup (outcome : String → FileOutcome) (st : IngestState) (p : String)
    (hnd : st.pending.Nodup) : (handle_new_task_file outcome st p).pending.Nodup := by
  rw [handle_pending_value]
  split
  · exact hnd
  · cases ho : outcome p
    case invalid => exact (insertIfAbsent_nodup p st.pending hnd).erase p
    case ok => exact insertIfAbsent_nodup p st.pending hnd
    case raisesExc => exact insertIfAbsent_nodup p st.pending hnd

lemma count_filter_eq (q : String → Bool) (p : String) :
    ∀ l : List String, (l.filter q).count p = if q p then l.count p else 0 := by
  intro l
  induction l with
  | nil => simp
  | cons a l ih =>
    by_cases hqa : q a
    · by_cases hap : a = p
      · subst hap
        simp [List.filter_cons, hqa, List.count_cons, ih]
      · simp [List.filter_cons, hqa, List.count_cons, ih, hap]
    · by_cases hap : a = p
      · subst hap
        simp [List.filter_cons, hqa, List.count_cons, ih]
      · simp [List.filter_cons, hqa, List.count_cons, ih, hap]

lemma resume_handlerCalls (outcome : String → FileOutcome) (onDisk inProc : String → Bool) :
    ∀ (ps : List String) (st : IngestState),
    (resume_pending outcome onDisk inProc ps st).handlerCalls =
      st.handlerCalls ++ ps.filter (resumeCond onDisk inProc) := by
  intro ps
  induction ps with
  | nil => intro st; simp [resume_pending]
  | cons p rest ih =>
    intro st
    by_cases hc : resumeCond onDisk inProc p
    · simp only [resume_pending, hc, if_true, ih, handle_handlerCalls,
        List.filter_cons_of_pos hc, List.append_assoc, List.cons_append,
        List.nil_append]
    · simp only [resume_pending, hc, Bool.false_eq_true, if_false, ih,
        List.filter_cons_of_neg (by simpa using hc)]

lemma resume_savedPending (outcome : String → FileOutcome) (onDisk inProc : String → Bool) :
    ∀ (ps : List String) (st : IngestState),
    (resume_pending outcome onDisk inProc ps st).savedPending =
      some (resume_pending outcome onDisk inProc ps st).pending := by
  intro ps
  induction ps with
  | nil => intro st; simp [resume_pending]
  | cons p rest ih =>
    intro st
    by_cases hc : resumeCond onDisk inProc p <;> simp only [resume_pending, hc, if_true,
      if_false] <;> exact ih _

lemma resume_pending_frame (outcome : String → FileOutcome) (onDisk inProc : String → Bool)
    (p : String) :
    ∀ (ps : List String) (st : IngestState), p ∉ ps → p ∉ st.pending →
    p ∉ (resume_pending outcome onDisk inProc ps st).pending := by
  intro ps
  induction ps with
  | nil => intro st _ hst; simpa [resume_pending] using hst
  | cons q rest ih =>
    intro st hps hst
    have hne : p ≠ q := fun h => hps (h ▸ List.mem_cons_self q rest)
    have hrest : p ∉ rest := fun h => hps (List.mem_cons_of_mem q h)
    by_cases hc : resumeCond onDisk inProc q
    · simp only [resume_pending, hc, if_true]
      exact ih _ hrest ((handle_pending_frame outcome st q p hne).not.mpr hst)
    · simp only [resume_pending, hc, if_false]
      exact ih _ hrest (fun h => hst (List.mem_of_mem_erase h))

lemma resume_queued_mono (outcome : String → FileOutcome) (onDisk inProc : String → Bool)
    (x : String × String) :
    ∀ (ps : List String) (st : IngestState), x ∈ st.queued →
    x ∈ (resume_pending outcome onDisk inProc ps st).queued := by
  intro ps
  induction ps with
  | nil => intro st hst; simpa [resume_pending] using hst
  | cons q rest ih =>
    intro st hst
    by_cases hc : resumeCond onDisk inProc q
    · simp only [resume_pending, hc, if_true]
      refine ih _ ?_
      rw [handle_queued]
      exact List.mem_append_left _ hst
    · simp only [resume_pending, hc, if_false]
      exact ih _ hst

lemma resume_pending_removed (outcome : String → FileOutcome) (onDisk inProc : String → Bool)
    (p : String) :
    ∀ (ps : List String) (st : IngestState), ps.Nodup → st.pending.Nodup → p ∈ ps →
    resumeCond onDisk inProc p = false →
    p ∉ (resume_pending outcome onDisk inProc ps st).pending := by
  intro ps
  induction ps with
  | nil => intro st _ _ hmem; exact absurd hmem (List.not_mem_nil p)
  | cons q rest ih =>
    intro st hnd hpnd hmem hcf
    rcases List.mem_cons.mp hmem with rfl | hmem2
    · rw [resume_pending, if_neg (by simp [hcf])]
      exact resume_pending_frame outcome onDisk inProc p rest _
        ((List.nodup_cons.mp hnd).1) (by simpa using hpnd.not_mem_erase)
    · by_cases hc : resumeCond onDisk inProc q
      · rw [resume_pending, if_pos hc]
        exact ih _ (List.nodup_cons.mp hnd).2
          (handle_pending_nodup outcome st q hpnd) hmem2 hcf
      · rw [resume_pending, if_neg (by simpa using hc)]
        exact ih _ (List.nodup_cons.mp hnd).2 (hpnd.erase q) hmem2 hcf

lemma resume_queued_of_ok (outcome : String → FileOutcome) (onDisk inProc : String → Bool)
    (p tid : String) :
    ∀ (ps : List String) (st : IngestState), ps.Nodup → p ∈ ps → p ∉ st.inflight →
    resumeCond onDisk inProc p = true → outcome p = .ok tid →
    (tid, p) ∈ (resume_pending outcome onDisk inProc ps st).queued := by
  intro ps
  induction ps with
  | nil => intro st _ hmem; exact absurd hmem (List.not_mem_nil p)
  | cons q rest ih =>
    intro st hnd hmem hinf hct hok
    rcases List.mem_cons.mp hmem with rfl | hmem2
    · rw [resume_pending, if_pos hct]
      refine resume_queued_mono outcome onDisk inProc (tid, p) rest _ ?_
      rw [handle_queued, if_neg hinf, hok]
      simp
    · have hne : p ≠ q := by
        rintro rfl
        exact (List.nodup_cons.mp hnd).1 hmem2
      by_cases hc : resumeCond onDisk inProc q
      · rw [resume_pending, if_pos hc]
        exact ih _ (List.nodup_cons.mp hnd).2 hmem2
          (handle_inflight_frame outcome st q p hne hinf) hct hok
      · rw [resume_pending, if_neg (by simpa using hc)]
        exact ih _ (List.nodup_cons.mp hnd).2 hmem2 hinf hct hok

/-- C8: at startup, every path in the persisted pending set that still exists
on disk and is not inside the processed-archive directory is re-submitted
exactly once through `_handle_new_task_file` (the same ingestion handler used
for new files), and when it parses it is queued; every other pending path is
removed from the pending set without being re-processed; the updated pending
set is persisted afterwards. -/
theorem C8_resume_idempotent (outcome : String → FileOutcome)
    (onDisk inProc : String → Bool) (st : IngestState) (p : String)
    (hnd : st.pending.Nodup) (hin : st.inflight = [])
    (hhc : st.handlerCalls = []) (hp : p ∈ st.pending) :
    (resumeCond onDisk inProc p = true →
      (start_resume outcome onDisk inProc st).handlerCalls.count p = 1 ∧
      (∀ tid, outcome p = .ok tid →
        (tid, p) ∈ (start_resume outcome onDisk inProc st).queued)) ∧
    (resumeCond onDisk inProc p = false →
      (start_resume outcome onDisk inProc st).handlerCalls.count p = 0 ∧
      p ∉ (start_resume outcome onDisk inProc st).pending) ∧
    (start_resume outcome onDisk inProc st).savedPending =
      some (start_resume outcome onDisk inProc st).pending := by
  have hcalls : (start_resume outcome onDisk inProc st).handlerCalls =
      st.pending.filter (resumeCond onDisk inProc) := by
    unfold start_resume
    rw [resume_handlerCalls, hhc, List.nil_append]
  refine ⟨fun hct => ⟨?_, fun tid hok => ?_⟩, fun hcf => ⟨?_, ?_⟩, ?_⟩
  · rw [hcalls, count_filter_eq, if_pos hct]
    exact List.count_eq_one_of_mem hnd hp
  · exact resume_queued_of_ok outcome onDisk inProc p tid st.pending st hnd hp
      (by simp [hin]) hct hok
  · rw [hcalls, count_filter_eq, if_neg (by simp [hcf])]
  · exact resume_pending_removed outcome onDisk inProc p st.pending st hnd hnd hp hcf
  · exact resume_savedPending outcome onDisk inProc st.pending st

/-- Witness for C8: pending set `["tasks/a.task.md", "tasks/gone.task.md"]`
where only the first path still exists on disk. -/
theorem C8_resume_idempotent_witness :
    (resumeCond (fun q => q == "tasks/a.task.md") (fun _ => false)
        "tasks/a.task.md" = true →
      (start_resume (fun q => FileOutcome.ok ("task_" ++ q))
          (fun q => q == "tasks/a.task.md") (fun _ => false)
          { pending := ["tasks/a.task.md", "tasks/gone.task.md"] }).handlerCalls.count
          "tasks/a.task.md" = 1 ∧
      (∀ tid, (fun q => FileOutcome.ok ("task_" ++ q)) "tasks/a.task.md" =
          FileOutcome.ok tid →
        (tid, "tasks/a.task.md") ∈ (start_resume (fun q => FileOutcome.ok ("task_" ++ q))
          (fun q => q == "tasks/a.task.md") (fun _ => false)
          { pending := ["tasks/a.task.md", "tasks/gone.task.md"] }).queued)) ∧
    (resumeCond (fun q => q == "tasks/a.task.md") (fun _ => false)
        "tasks/a.task.md" = false →
      (start_resume (fun q => FileOutcome.ok ("task_" ++ q))
          (fun q => q == "tasks/a.task.md") (fun _ => false)
          { pending := ["tasks/a.task.md", "tasks/gone.task.md"] }).handlerCalls.count
          "tasks/a.task.md" = 0 ∧
      "tasks/a.task.md" ∉ (start_resume (fun q => FileOutcome.ok ("task_" ++ q))
          (fun q => q == "tasks/a.task.md") (fun _ => false)
          { pending := ["tasks/a.task.md", "tasks/gone.task.md"] }).pending) ∧
    (start_resume (fun q => FileOutcome.ok ("task_" ++ q))
        (fun q => q == "tasks/a.task.md") (fun _ => false)
        { pending := ["tasks/a.task.md", "tasks/gone.task.md"] }).savedPending =
      some (start_resume (fun q => FileOutcome.ok ("task_" ++ q))
        (fun q => q == "tasks/a.task.md") (fun _ => false)
        { pending := ["tasks/a.task.md", "tasks/gone.task.md"] }).pending :=
  C8_resume_idempotent (fun q => FileOutcome.ok ("task_" ++ q))
    (fun q => q == "tasks/a.task.md") (fun _ => false)
    { pending := ["tasks/a.task.md", "tasks/gone.task.md"] } "tasks/a.task.md"
    (by decide) rfl rfl (by decide)

end AITeam
